import Mathlib

/-!
Verification of the auto-export scheduling pipeline of
`src/content/auto-export.ts` (Zotero Better BibTeX).

The TypeScript source is shallowly embedded as follows.

* The Loki-style definition store (`DB.getCollection('autoexport')`) is a
  `List AE`; `db.get`, `db.update`, `db.insert`, `db.remove`,
  `db.removeWhere` and `db.find` are translated pointwise (`dbGet`,
  `dbUpdate`, list filtering and appending).  A record's `$loki` key is the
  `loki` field.
* The coordinator methods `AutoExport.init`, `AutoExport.add`,
  `AutoExport.remove` and `AutoExport.changed` are translated as pure
  functions over a `Sys` state holding the store and the two queues'
  pending (not-yet-started) task ids plus the debounce queue's paused flag.
* The two `better-queue` instances are external library objects; the parts
  of their documented contract the source relies on are modelled
  explicitly: a task's id is `task.id`; pushing a task whose id is already
  queued merges (one pending entry per id); with `cancelIfRunning: true`,
  pushing a task whose id is currently running invokes the running
  worker's `cancel` handle and queues the new task; `queue.cancel(id)`
  drops a queued task with that id and invokes a running worker's `cancel`
  handle; `pause`/`resume` gate the starting of queued tasks (a running
  task keeps running); the default concurrency is one task at a time.
  The debounce stage (`scheduler`) is modelled per identity as the state
  machine `DebSt`/`stepD` below; the run stage handler is the pure
  function `scheduledHandler`.
* The `queueHandler` wrapper returns a handle whose `cancel()` sets
  `task.cancelled = true` on the task OBJECT that was pushed.  The
  scheduler's handler, however, rebinds `task` to a shallow copy
  (`task = {...task}`) before awaiting the debounce delay, so the
  `if (task.cancelled)` test after the wait reads the copy, not the object
  the cancel handle mutates.  The machine models this faithfully: task
  objects are mutable cells in `DebSt.flags`, and each started wait stores
  the flag value as copied at handler start (`Wait.cancelledCopy`).
* `Translators.translate` is an external collaborator; it is a parameter
  returning `TransResult.ok` or `TransResult.error msg` where `msg` is the
  thrown error's string description (the source records it via a template
  literal).  The overleaf-detection block in the run handler only emits
  debug log lines (the actual `git` exec is commented out in the source),
  so it has no behavioural effect and is not modelled.
* The trigger controller (line 134, the `idleObserver` and the
  `preference-changed` handler) is the state machine `TState`/`stepT`;
  `TState.lastSignal` is ghost state recording the most recent environment
  signal, used only to state the invariant.
-/

namespace AutoExport

/-- An autoexport definition record, as stored in the `autoexport` Loki
collection: `$loki` key, scope kind (`type`), scope identity (`id`),
output `path`, `status`, last `error`, and the export options passed to
`Translators.translate`. -/
structure AE where
  loki : Nat
  type : String
  id : Nat
  path : String
  status : String
  error : String
  translatorID : String
  exportNotes : Bool
  useJournalAbbreviation : Bool
deriving DecidableEq, Repr

/-- `db.get(id)`: fetch the record whose `$loki` equals `id`. -/
def dbGet (db : List AE) (i : Nat) : Option AE :=
  db.find? (fun ae => ae.loki == i)

/-- `db.update(record)`: replace the stored record with the same `$loki`. -/
def dbUpdate (db : List AE) (x : AE) : List AE :=
  db.map (fun ae => if ae.loki == x.loki then x else ae)

/-- Combined system state for the coordinator operations: the store, the
pending (queued, not-yet-started) task ids of the debounce queue
(`scheduler`) and of the run queue (`scheduled`), and the debounce queue's
paused flag. -/
structure Sys where
  store : List AE
  schedulerQueue : List Nat
  scheduledQueue : List Nat
  paused : Bool
deriving DecidableEq, Repr

/-- `AutoExport.init()` (source lines 186-193): for every record found by
`db.find({status: {$ne: 'done'}})`, push `{id: ae.$loki}` into the
DEBOUNCE queue (`scheduler.push`); then `scheduler.resume()` if the
`autoExport` preference is `immediate`. -/
def init (pref : String) (sys : Sys) : Sys :=
  { sys with
    schedulerQueue :=
      sys.schedulerQueue ++
        ((sys.store.filter (fun ae => decide (ae.status ≠ "done"))).map AE.loki),
    paused := if pref = "immediate" then false else sys.paused }

/-- `AutoExport.add(ae)` (source lines 195-199):
`db.removeWhere({path: ae.path})` then `db.insert(ae)`. -/
def add (sys : Sys) (ae : AE) : Sys :=
  { sys with
    store := (sys.store.filter (fun b => decide (¬ b.path = ae.path))) ++ [ae] }

/-- One iteration of the loop body of `AutoExport.remove` (source lines
234-238): `scheduled.cancel(ae.$loki)`, `scheduler.cancel(ae.$loki)`
(each drops the queued task with that id; for a running worker they only
invoke its best-effort cancel handle, which does not affect these pending
sets), then `db.remove(ae)`. -/
def cancelOne (sys : Sys) (ae : AE) : Sys :=
  { store := sys.store.filter (fun b => decide (¬ b.loki = ae.loki)),
    schedulerQueue := sys.schedulerQueue.filter (fun t => decide (¬ t = ae.loki)),
    scheduledQueue := sys.scheduledQueue.filter (fun t => decide (¬ t = ae.loki)),
    paused := sys.paused }

/-- `AutoExport.remove(type, ids)` (source lines 232-239): collect
`db.find({type, id: {$in: ids}})`, then run `cancelOne` on each match. -/
def remove (t : String) (ids : List Nat) (sys : Sys) : Sys :=
  (sys.store.filter (fun ae => decide (ae.type = t) && decide (ae.id ∈ ids))).foldl
    cancelOne sys

lemma filter_path_after_add (l : List AE) (ae : AE) :
    ((l.filter (fun b => decide (¬ b.path = ae.path))) ++ [ae]).filter
        (fun b => decide (b.path = ae.path)) = [ae] := by
  induction l with
  | nil => simp
  | cons b l ih =>
    by_cases h : b.path = ae.path
    · simp [h, ih]
    · simp [h, ih]

/-- C8: `add(def)` first removes every record stored at the same output
path, then inserts `def`; a subsequent `Store.find` on that path returns
exactly the one newly inserted record. -/
theorem C8_add_find_roundtrip (sys : Sys) (ae : AE) :
    (AutoExport.add sys ae).store.filter (fun b => decide (b.path = ae.path)) = [ae] := by
  unfold add
  exact filter_path_after_add sys.store ae

/-- Witness for C8 at a concrete store and definition. -/
theorem C8_add_find_roundtrip_witness :
    (AutoExport.add
        { store := [], schedulerQueue := [], scheduledQueue := [], paused := true }
        { loki := 2, type := "library", id := 6, path := "/tmp/b.bib",
          status := "done", error := "", translatorID := "tr",
          exportNotes := false, useJournalAbbreviation := true }).store.filter
      (fun b => decide (b.path =
        ({ loki := 2, type := "library", id := 6, path := "/tmp/b.bib",
           status := "done", error := "", translatorID := "tr",
           exportNotes := false, useJournalAbbreviation := true } : AE).path)) =
      [{ loki := 2, type := "library", id := 6, path := "/tmp/b.bib",
         status := "done", error := "", translatorID := "tr",
         exportNotes := false, useJournalAbbreviation := true }] :=
  C8_add_find_roundtrip
    { store := [], schedulerQueue := [], scheduledQueue := [], paused := true }
    { loki := 2, type := "library", id := 6, path := "/tmp/b.bib",
      status := "done", error := "", translatorID := "tr",
      exportNotes := false, useJournalAbbreviation := true }

/-- A concrete definition whose status is not `done`, for the `init`
counterexample and witnesses. -/
def aeC3 : AE :=
  { loki := 1, type := "collection", id := 10, path := "/tmp/a.bib",
    status := "scheduled", error := "", translatorID := "tr",
    exportNotes := false, useJournalAbbreviation := false }

/-- System state holding just `aeC3`, both queues empty, scheduler paused. -/
def sysC3 : Sys :=
  { store := [aeC3], schedulerQueue := [], scheduledQueue := [], paused := true }

/-- C3 counterexample: the claim says `init()` enqueues the not-`done`
definitions DIRECTLY into the promoted (Run Executor) stage, skipping the
debounce wait.  On the concrete store holding the single not-`done`
definition `aeC3`, `init` leaves the run queue (`scheduled`) empty and
instead enqueues the definition into the debounce queue (`scheduler`),
where it is subject to the quiet-period wait. -/
theorem C3_counterexample :
    aeC3.status ≠ "done" ∧
    (AutoExport.init "immediate" sysC3).scheduledQueue = [] ∧
    (AutoExport.init "immediate" sysC3).schedulerQueue = [1] := by
  refine ⟨by decide, rfl, by decide⟩

/-- C3 (amended): `init()` enqueues exactly the definitions whose status
is not `done` into the Debounce Scheduler's DEBOUNCE stage (they undergo
the quiet-period wait; the Run Executor queue is untouched), and then
resumes the scheduler if the Trigger Mode preference is `immediate`,
leaving the paused flag unchanged otherwise. -/
theorem C3_init_amended (pref : String) (sys : Sys)
    (hq : sys.schedulerQueue = []) :
    (∀ l : Nat, l ∈ (AutoExport.init pref sys).schedulerQueue ↔
        ∃ ae ∈ sys.store, ae.loki = l ∧ ae.status ≠ "done") ∧
    (AutoExport.init pref sys).scheduledQueue = sys.scheduledQueue ∧
    (AutoExport.init pref sys).store = sys.store ∧
    (pref = "immediate" → (AutoExport.init pref sys).paused = false) ∧
    (pref ≠ "immediate" → (AutoExport.init pref sys).paused = sys.paused) := by
  unfold init
  refine ⟨?_, rfl, rfl, ?_, ?_⟩
  · intro l
    simp only [hq, List.nil_append, List.mem_map, List.mem_filter,
      decide_eq_true_eq]
    constructor
    · rintro ⟨ae, ⟨hmem, hst⟩, rfl⟩
      exact ⟨ae, hmem, rfl, hst⟩
    · rintro ⟨ae, hmem, rfl, hst⟩
      exact ⟨ae, ⟨hmem, hst⟩, rfl⟩
  · intro h; simp [h]
  · intro h; simp [h]

/-- Witness for C3's amended theorem at the concrete input `sysC3`. -/
theorem C3_init_amended_witness :
    (∀ l : Nat, l ∈ (AutoExport.init "immediate" sysC3).schedulerQueue ↔
        ∃ ae ∈ sysC3.store, ae.loki = l ∧ ae.status ≠ "done") ∧
    (AutoExport.init "immediate" sysC3).scheduledQueue = sysC3.scheduledQueue ∧
    (AutoExport.init "immediate" sysC3).store = sysC3.store ∧
    ("immediate" = "immediate" →
      (AutoExport.init "immediate" sysC3).paused = false) ∧
    ("immediate" ≠ "immediate" →
      (AutoExport.init "immediate" sysC3).paused = sysC3.paused) :=
  C3_init_amended "immediate" sysC3 rfl

lemma cancelOne_store_sub {sys : Sys} {ae b : AE}
    (h : b ∈ (cancelOne sys ae).store) : b ∈ sys.store := by
  unfold cancelOne at h
  exact (List.mem_filter.1 h).1

lemma foldl_cancelOne_store_sub :
    ∀ (l : List AE) (sys : Sys) (b : AE),
      b ∈ (l.foldl cancelOne sys).store → b ∈ sys.store := by
  intro l
  induction l with
  | nil => intro sys b h; exact h
  | cons c l ih =>
    intro sys b h
    exact cancelOne_store_sub (ih (cancelOne sys c) b h)

lemma foldl_cancelOne_schedulerQ_mono :
    ∀ (l : List AE) (sys : Sys) (x : Nat),
      x ∉ sys.schedulerQueue → x ∉ (l.foldl cancelOne sys).schedulerQueue := by
  intro l
  induction l with
  | nil => intro sys x h; exact h
  | cons c l ih =>
    intro sys x h
    refine ih (cancelOne sys c) x ?_
    intro hmem
    exact h (List.mem_filter.1 hmem).1

lemma foldl_cancelOne_scheduledQ_mono :
    ∀ (l : List AE) (sys : Sys) (x : Nat),
      x ∉ sys.scheduledQueue → x ∉ (l.foldl cancelOne sys).scheduledQueue := by
  intro l
  induction l with
  | nil => intro sys x h; exact h
  | cons c l ih =>
    intro sys x h
    refine ih (cancelOne sys c) x ?_
    intro hmem
    exact h (List.mem_filter.1 hmem).1

lemma foldl_cancelOne_removes :
    ∀ (l : List AE) (sys : Sys) (ae : AE), ae ∈ l →
      ae.loki ∉ (l.foldl cancelOne sys).schedulerQueue ∧
      ae.loki ∉ (l.foldl cancelOne sys).scheduledQueue ∧
      ∀ b ∈ (l.foldl cancelOne sys).store, b.loki ≠ ae.loki := by
  intro l
  induction l with
  | nil => intro sys ae h; cases h
  | cons c l ih =>
    intro sys ae h
    rcases List.mem_cons.1 h with rfl | h
    · have h1 : ae.loki ∉ (cancelOne sys ae).schedulerQueue := by
        intro hmem
        have := (List.mem_filter.1 hmem).2
        simp at this
      have h2 : ae.loki ∉ (cancelOne sys ae).scheduledQueue := by
        intro hmem
        have := (List.mem_filter.1 hmem).2
        simp at this
      refine ⟨foldl_cancelOne_schedulerQ_mono l _ _ h1,
        foldl_cancelOne_scheduledQ_mono l _ _ h2, ?_⟩
      intro b hb
      have hb' : b ∈ (cancelOne sys ae).store :=
        foldl_cancelOne_store_sub l _ b hb
      have := (List.mem_filter.1 hb').2
      simpa using this
    · exact ih (cancelOne sys c) ae h

/-- C5: `remove(scopeKind, scopeIdentities)` cancels, for every matching
definition, its pending (not-yet-started) entries in both the debounce
queue and the run queue, and deletes the definition from the store; hence
no not-yet-started debounce or run entry for a removed definition is left
to execute. -/
theorem C5_remove_cancels_and_deletes (sys : Sys) (t : String) (ids : List Nat)
    (ae : AE) (hmem : ae ∈ sys.store) (ht : ae.type = t) (hid : ae.id ∈ ids) :
    ae.loki ∉ (AutoExport.remove t ids sys).schedulerQueue ∧
    ae.loki ∉ (AutoExport.remove t ids sys).scheduledQueue ∧
    ∀ b ∈ (AutoExport.remove t ids sys).store, b.loki ≠ ae.loki := by
  unfold remove
  refine foldl_cancelOne_removes _ sys ae ?_
  simp only [List.mem_filter, Bool.and_eq_true, decide_eq_true_eq]
  exact ⟨hmem, ht, hid⟩

/-- A concrete definition matched and removed in the C5 witness. -/
def aeC5 : AE :=
  { loki := 4, type := "library", id := 2, path := "/tmp/l.bib",
    status := "done", error := "", translatorID := "tr",
    exportNotes := true, useJournalAbbreviation := false }

/-- System state for the C5 witness: `aeC5` is stored and has pending
entries in both queues. -/
def sysC5 : Sys :=
  { store := [aeC5], schedulerQueue := [4, 9], scheduledQueue := [4],
    paused := false }

/-- Witness for C5 at the concrete input `sysC5`. -/
theorem C5_remove_witness :
    aeC5.loki ∉ (AutoExport.remove "library" [2, 3] sysC5).schedulerQueue ∧
    aeC5.loki ∉ (AutoExport.remove "library" [2, 3] sysC5).scheduledQueue ∧
    ∀ b ∈ (AutoExport.remove "library" [2, 3] sysC5).store, b.loki ≠ aeC5.loki :=
  C5_remove_cancels_and_deletes sysC5 "library" [2, 3] aeC5 (by decide)
    (by decide) (by decide)

/-- Outcome of the external `Translators.translate` call: the exported
promise either resolves, or rejects with an error whose string description
is `msg`. -/
inductive TransResult
  | ok
  | error (msg : String)
deriving DecidableEq, Repr

/-- The item selector built by the run handler's `switch (ae.type)`
(source lines 47-56): a collection scope, a library scope, or `null`. -/
inductive ItemSel
  | collection (i : Nat)
  | library (i : Nat)
deriving DecidableEq, Repr

/-- The arguments the run handler passes to `Translators.translate`
(source line 74). -/
structure TransArgs where
  translatorID : String
  exportNotes : Bool
  useJournalAbbreviation : Bool
  items : Option ItemSel
  path : String
deriving DecidableEq, Repr

/-- `switch (ae.type)` of the run handler (source lines 47-56). -/
def itemsFor (ae : AE) : Option ItemSel :=
  match ae.type with
  | "collection" => some (ItemSel.collection ae.id)
  | "library" => some (ItemSel.library ae.id)
  | _ => none

/-- The argument record for `Translators.translate(ae.translatorID,
{exportNotes, useJournalAbbreviation}, items, ae.path)`. -/
def transArgs (ae : AE) : TransArgs :=
  { translatorID := ae.translatorID, exportNotes := ae.exportNotes,
    useJournalAbbreviation := ae.useJournalAbbreviation,
    items := itemsFor ae, path := ae.path }

/-- The run-stage (`scheduled`) queue handler (source lines 36-87):
load the record (`throw` if absent — modelled as `Except.error`, which
`queueHandler` turns into a failed task); set status `running` and
persist; run the export; on success clear `error`, on failure record the
error's description; in both cases set status `done` and persist, and
return normally.  The overleaf-detection block only writes debug log
lines (the `git` exec in the source is commented out), so it is omitted
as a no-op. -/
def scheduledHandler (translate : TransArgs → TransResult) (db : List AE)
    (tid : Nat) : Except String (List AE) :=
  match dbGet db tid with
  | none => Except.error ("AutoExport " ++ toString tid ++ " not found")
  | some ae =>
    let ae1 := { ae with status := "running" }
    let db1 := dbUpdate db ae1
    let ae2 :=
      match translate (transArgs ae1) with
      | TransResult.ok => { ae1 with error := "" }
      | TransResult.error msg => { ae1 with error := msg }
    let ae3 := { ae2 with status := "done" }
    Except.ok (dbUpdate db1 ae3)

lemma dbGet_loki {db : List AE} {tid : Nat} {ae : AE}
    (h : dbGet db tid = some ae) : ae.loki = tid := by
  have := List.find?_some h
  simpa using this

lemma dbGet_dbUpdate {db : List AE} {tid : Nat} {ae : AE} (x : AE)
    (h : dbGet db tid = some ae) (hx : x.loki = tid) :
    dbGet (dbUpdate db x) tid = some x := by
  induction db with
  | nil => simp [dbGet] at h
  | cons b l ih =>
    by_cases hb : b.loki = tid
    · simp [dbGet, dbUpdate, hb, hx]
    · have h' : dbGet l tid = some ae := by
        simpa [dbGet, hb] using h
      have hxb : ¬ b.loki = x.loki := by rw [hx]; exact hb
      have hres := ih h'
      simpa [dbGet, dbUpdate, hb, hxb] using hres

/-- C4: the Run Executor contains failures per entry.  Whenever the
scheduled identity has a backing record, the handler returns normally
(never re-throws the export error); the persisted record ends with status
`done`, and its last error is the empty string when the export succeeded
and the error's description when it failed. -/
theorem C4_run_contains_failures (translate : TransArgs → TransResult)
    (db : List AE) (tid : Nat) (ae : AE) (h : dbGet db tid = some ae) :
    ∃ db' : List AE, scheduledHandler translate db tid = Except.ok db' ∧
      dbGet db' tid = some
        { ae with
          status := "done",
          error :=
            (match translate (transArgs { ae with status := "running" }) with
             | TransResult.ok => ""
             | TransResult.error msg => msg) } := by
  have hloki : ae.loki = tid := dbGet_loki h
  unfold scheduledHandler
  rw [h]
  refine ⟨_, rfl, ?_⟩
  have h1 : dbGet (dbUpdate db { ae with status := "running" }) tid =
      some { ae with status := "running" } :=
    dbGet_dbUpdate _ h hloki
  cases htr : translate (transArgs { ae with status := "running" }) with
  | ok =>
    simpa [htr] using dbGet_dbUpdate
      (x := { ae with status := "done", error := "" }) h1 hloki
  | error msg =>
    simpa [htr] using dbGet_dbUpdate
      (x := { ae with status := "done", error := msg }) h1 hloki

/-- A translate stub that always fails with description `disk full`. -/
def translateDiskFull : TransArgs → TransResult :=
  fun _ => TransResult.error "disk full"

/-- Witness for C4: running `aeC3` (stored under `$loki = 1`) with an
export that fails with `disk full` ends with status `done`, last error
`disk full`, and no propagated exception. -/
theorem C4_run_contains_failures_witness :
    ∃ db' : List AE, scheduledHandler translateDiskFull [aeC3] 1 = Except.ok db' ∧
      dbGet db' 1 = some
        { aeC3 with
          status := "done",
          error :=
            (match translateDiskFull (transArgs { aeC3 with status := "running" }) with
             | TransResult.ok => ""
             | TransResult.error msg => msg) } :=
  C4_run_contains_failures translateDiskFull [aeC3] 1 aeC3 (by decide)

/-- The `autoExport` trigger-mode preference: `off`, `immediate` or
`idle`. -/
inductive Mode
  | off
  | immediate
  | idle
deriving DecidableEq, Repr

/-- The environment signal delivered to `idleObserver.observe` as its
`topic`: `active`, `back` (back from idle) or `idle`. -/
inductive Signal
  | active
  | back
  | idle
deriving DecidableEq, Repr

/-- Inbound events of the trigger controller: an idle-service
notification, a `preference-changed` event for `autoExport` (the
preference store already holds the new mode when the handler reads it), a
`preference-changed` event for any other preference (the handler returns
at once), and `AutoExport.init()`'s conditional resume. -/
inductive TEvent
  | signal (t : Signal)
  | prefAuto (m : Mode)
  | prefOther
  | initResume
deriving DecidableEq, Repr

/-- Trigger-controller state: the current `autoExport` mode, the debounce
scheduler's paused flag, and (ghost, for stating the invariant) the most
recent environment signal. -/
structure TState where
  mode : Mode
  paused : Bool
  lastSignal : Option Signal
deriving DecidableEq, Repr

/-- One step of the trigger controller.

`signal` is `idleObserver.observe` (source lines 143-157): if the mode is
not `idle` the handler returns; `back`/`active` pause the scheduler;
`idle` resumes it.  `prefAuto` is the `preference-changed` handler
(source lines 161-173): `immediate` resumes, anything else (`off`
or `idle`) pauses.  `initResume` is the tail of `AutoExport.init()`
(source line 192): resume only when the mode is `immediate`. -/
def stepT (st : TState) : TEvent → TState
  | TEvent.signal t =>
    let st1 := { st with lastSignal := some t }
    if st1.mode = Mode.idle then
      match t with
      | Signal.back => { st1 with paused := true }
      | Signal.active => { st1 with paused := true }
      | Signal.idle => { st1 with paused := false }
    else st1
  | TEvent.prefAuto m =>
    let st1 := { st with mode := m }
    match m with
    | Mode.immediate => { st1 with paused := false }
    | _ => { st1 with paused := true }
  | TEvent.prefOther => st
  | TEvent.initResume =>
    if st.mode = Mode.immediate then { st with paused := false } else st

/-- Initial trigger state (source line 134): a fresh queue is running, and
`scheduler.pause()` is called unless the preference is `immediate`. -/
def initT (m : Mode) : TState :=
  { mode := m, paused := decide (¬ m = Mode.immediate), lastSignal := none }

/-- The trigger controller state after processing a list of events from
the initial state for mode `m`. -/
def runT (m : Mode) (evs : List TEvent) : TState :=
  evs.foldl stepT (initT m)

/-- The paused/resumed flag as a function of mode and environment signal:
mode `off` means paused whatever the signal; mode `immediate` means
resumed whatever the signal; in mode `idle` the scheduler is resumed only
while the most recent environment signal is `idle` (in particular any
`active` or `back` signal leaves it paused). -/
def TInv (st : TState) : Prop :=
  (st.mode = Mode.off → st.paused = true) ∧
  (st.mode = Mode.immediate → st.paused = false) ∧
  (st.mode = Mode.idle → st.paused = false → st.lastSignal = some Signal.idle)

lemma stepT_inv (st : TState) (e : TEvent) (h : TInv st) : TInv (stepT st e) := by
  obtain ⟨h1, h2, h3⟩ := h
  cases e with
  | signal t =>
    by_cases hm : st.mode = Mode.idle
    · cases t <;> simp [stepT, hm, TInv]
    · have hstep : stepT st (TEvent.signal t) = { st with lastSignal := some t } := by
        simp [stepT, hm]
      rw [hstep]
      exact ⟨h1, h2, fun hcon => absurd hcon hm⟩
  | prefAuto m => cases m <;> simp [stepT, TInv]
  | prefOther => exact ⟨h1, h2, h3⟩
  | initResume =>
    by_cases hm : st.mode = Mode.immediate
    · simp [stepT, hm, TInv]
    · have hstep : stepT st TEvent.initResume = st := by simp [stepT, hm]
      rw [hstep]
      exact ⟨h1, h2, h3⟩

lemma foldl_stepT_inv :
    ∀ (evs : List TEvent) (st : TState), TInv st → TInv (evs.foldl stepT st) := by
  intro evs
  induction evs with
  | nil => intro st h; exact h
  | cons e evs ih => intro st h; exact ih (stepT st e) (stepT_inv st e h)

/-- C6: in every state the trigger controller can reach (any initial mode,
any interleaving of idle-service signals, `preference-changed` events and
re-inits), the debounce scheduler's paused flag is governed by mode and
environment signal: mode `off` keeps it paused regardless of the signal,
mode `immediate` keeps it resumed regardless of the signal, and in mode
`idle` it is resumed only while the most recent signal is `idle` (so any
`active` or `back` signal leaves it paused). -/
theorem C6_trigger_invariant (m : Mode) (evs : List TEvent) :
    TInv (runT m evs) := by
  refine foldl_stepT_inv evs (initT m) ?_
  cases m <;> simp [initT, TInv]

/-- Witness for C6 on a concrete trace: mode `idle`, signals `idle` then
`active`. -/
theorem C6_trigger_invariant_witness :
    TInv (runT Mode.idle [TEvent.signal Signal.idle, TEvent.signal Signal.active]) :=
  C6_trigger_invariant Mode.idle
    [TEvent.signal Signal.idle, TEvent.signal Signal.active]

/-- `const debounce_delay = 1000` (source line 98). -/
def debounce_delay : Nat := 1000

/-- A live debounce-handler continuation: the handler has set status
`scheduled` and is suspended in `await Zotero.Promise.delay(...)`.
`token` identifies the task object the handler was invoked with;
`cancelledCopy` is the value of `task.cancelled` as captured when the
handler rebound `task = {...task}` at its start (source line 102) — the
post-wait check reads THIS copy; `remaining` is the time left on the
delay. -/
structure Wait where
  token : Nat
  cancelledCopy : Bool
  remaining : Nat
deriving DecidableEq, Repr

/-- Per-identity state of the debounce (`scheduler`) queue.  `flags` holds
the mutable `cancelled` field of every task object ever pushed for this
identity (a token is an index into it); `queued` is the pending
not-yet-started task (better-queue keeps at most one per id, merging);
`running` is the ticket better-queue currently counts as running;
`waits` are the handler continuations suspended in the debounce delay
(a continuation keeps running even after better-queue cancels its
ticket — promises are not abortable); `status` is the definition's status
as last persisted; `promotions` counts `scheduled.push(task)` calls
(promotions to the Run Executor); `failures` counts handler invocations
that threw. -/
structure DebSt where
  flags : List Bool
  queued : Option Nat
  running : Option Nat
  waits : List Wait
  paused : Bool
  inStore : Bool
  status : String
  promotions : Nat
  failures : Nat
deriving DecidableEq, Repr

/-- Read a task object's `cancelled` field. -/
def flagGet (flags : List Bool) (t : Nat) : Bool := flags.getD t false

/-- Start the queued task if the queue is not paused and no ticket is
running (better-queue dispatch, default concurrency one).  The handler
(source lines 101-123) runs synchronously up to its first `await`: it
rebinds `task` to a shallow copy, loads the record — throwing if absent,
which fails the task before any wait is started — then sets status
`scheduled`, persists, and suspends in the debounce delay. -/
def tryStart (st : DebSt) : DebSt :=
  if st.paused then st
  else
    match st.running, st.queued with
    | none, some tok =>
      if st.inStore then
        { st with
          queued := none, running := some tok, status := "scheduled",
          waits := st.waits ++
            [{ token := tok, cancelledCopy := flagGet st.flags tok,
               remaining := debounce_delay }] }
      else
        { st with queued := none, running := none,
                  failures := st.failures + 1 }
    | _, _ => st

/-- Cancel a running ticket: better-queue invokes the handle returned by
`queueHandler`, whose `cancel()` sets `task.cancelled = true` on the
ORIGINAL task object (source line 27), and the ticket is failed, freeing
the worker.  The suspended continuation itself keeps running. -/
def cancelRunning (st : DebSt) : DebSt :=
  match st.running with
  | some t => { st with flags := st.flags.set t true, running := none }
  | none => st

/-- `scheduler.push({id})`: with `cancelIfRunning: true` (source line
128), a push whose id is currently running cancels the running ticket
first; the fresh task object (its `cancelled` field unset) is then
queued, replacing any queued task with the same id, and dispatch runs. -/
def pushEv (st : DebSt) : DebSt :=
  let st1 := cancelRunning st
  tryStart { st1 with flags := st1.flags ++ [false],
                      queued := some st1.flags.length }

/-- `scheduler.cancel(id)` (invoked from `AutoExport.remove`, source line
236): a queued task with that id is dropped; a running ticket is
cancelled through its handle. -/
def cancelEv (st : DebSt) : DebSt :=
  cancelRunning { st with queued := none }

/-- A suspended continuation wakes after its delay (source lines 115-122):
if the COPY of `task.cancelled` it holds is set, it only logs; otherwise
it promotes the task to the run queue (`scheduled.push(task)`).  The
handler then returns, completing its ticket if better-queue still counts
it as running, which lets a queued task start. -/
def wake (st : DebSt) (w : Wait) : DebSt :=
  let st1 := if w.cancelledCopy then st
             else { st with promotions := st.promotions + 1 }
  let st2 := if st1.running = some w.token then { st1 with running := none }
             else st1
  tryStart st2

/-- Let `n` time units pass: every continuation's remaining delay drops by
`n`; the ones that elapse wake in creation order. -/
def tickEv (n : Nat) (st : DebSt) : DebSt :=
  let expired := st.waits.filter (fun w => decide (w.remaining ≤ n))
  let rest := (st.waits.filter (fun w => decide (¬ w.remaining ≤ n))).map
    (fun w => { w with remaining := w.remaining - n })
  expired.foldl wake { st with waits := rest }

/-- Inbound events of the per-identity debounce machine. -/
inductive DebEv
  | push
  | cancel
  | tick (n : Nat)
  | pause
  | resume
deriving DecidableEq, Repr

/-- One step of the per-identity debounce machine.  `pause`/`resume` are
`scheduler.pause()`/`scheduler.resume()`: pausing stops new tasks from
starting but does not interrupt a running wait; resuming dispatches. -/
def stepD (st : DebSt) : DebEv → DebSt
  | DebEv.push => pushEv st
  | DebEv.cancel => cancelEv st
  | DebEv.tick n => tickEv n st
  | DebEv.pause => { st with paused := true }
  | DebEv.resume => tryStart { st with paused := false }

/-- Initial per-identity debounce state: no task objects, nothing queued
or running, no suspended waits.  `inStore` says whether the identity has
a backing record in the `autoexport` collection; `paused` is the
scheduler's initial paused flag. -/
def initD (inStore paused : Bool) : DebSt :=
  { flags := [], queued := none, running := none, waits := [],
    paused := paused, inStore := inStore, status := "",
    promotions := 0, failures := 0 }

/-- Run the debounce machine over a list of events. -/
def runD (st : DebSt) (evs : List DebEv) : DebSt := evs.foldl stepD st

/-- C1 (failing trace): with the definition in the store and the
scheduler resumed, push the identity at t = 0, push it again at t = 500
(within the first quiet period), and let the clock reach t = 1500.  The
second push cancels the first ticket — better-queue invokes the cancel
handle, which sets `cancelled` on the first task object (`flags` ends as
`[true, false]`) — yet right after the second push TWO waits are pending
for the one identity, and both quiet periods end in a promotion: the
first continuation tests `cancelled` on the stale shallow copy it took
before the wait (`task = {...task}`, source line 102), which is still
false.  The code therefore promotes the identity TWICE where the claim
requires exactly one promotion. -/
theorem C1_two_pushes_promote_twice :
    (runD (initD true false) [DebEv.push, DebEv.tick 500, DebEv.push]).waits.length = 2 ∧
    (runD (initD true false)
        [DebEv.push, DebEv.tick 500, DebEv.push, DebEv.tick 1000]).promotions = 2 ∧
    (runD (initD true false)
        [DebEv.push, DebEv.tick 500, DebEv.push, DebEv.tick 1000]).flags =
      [true, false] := by
  refine ⟨by decide, by decide, by decide⟩

/-- C2 (failing trace): push at t = 0, `cancel` at t = 500, strictly
before the quiet period elapses.  The cancel handle sets `cancelled` on
the original task object (`flags = [true]`), and the status is left as
last set (`scheduled`), but when the wait elapses the continuation reads
the stale copy taken at handler start and STILL promotes the identity to
the run queue: promotions is 1 where the claim requires 0. -/
theorem C2_cancel_does_not_prevent_promotion :
    (runD (initD true false) [DebEv.push, DebEv.tick 500, DebEv.cancel]).flags = [true] ∧
    (runD (initD true false)
        [DebEv.push, DebEv.tick 500, DebEv.cancel, DebEv.tick 600]).promotions = 1 ∧
    (runD (initD true false)
        [DebEv.push, DebEv.tick 500, DebEv.cancel, DebEv.tick 600]).status =
      "scheduled" := by
  refine ⟨by decide, by decide, by decide⟩

/-- Invariant of the debounce machine for an identity with no backing
record: no wait is ever started, nothing is ever promoted, and no ticket
stays running. -/
def DebMissing (st : DebSt) : Prop :=
  st.inStore = false ∧ st.promotions = 0 ∧ st.waits = [] ∧ st.running = none

lemma tryStart_missing {st : DebSt} (h : DebMissing st) :
    DebMissing (tryStart st) := by
  obtain ⟨h1, h2, h3, h4⟩ := h
  unfold tryStart
  by_cases hp : st.paused
  · simp only [if_pos hp]; exact ⟨h1, h2, h3, h4⟩
  · simp only [if_neg hp]
    rw [h4]
    cases hq : st.queued with
    | none => exact ⟨h1, h2, h3, h4⟩
    | some tok => simp [h1, h2, h3, DebMissing]

lemma stepD_missing (st : DebSt) (e : DebEv) (h : DebMissing st) :
    DebMissing (stepD st e) := by
  obtain ⟨h1, h2, h3, h4⟩ := h
  cases e with
  | push =>
    have hcr : cancelRunning st = st := by
      unfold cancelRunning; rw [h4]
    show DebMissing (pushEv st)
    simp only [pushEv, hcr]
    exact tryStart_missing ⟨h1, h2, h3, h4⟩
  | cancel =>
    show DebMissing (cancelEv st)
    have hce : cancelEv st = { st with queued := none } := by
      unfold cancelEv cancelRunning
      simp [h4]
    rw [hce]
    exact ⟨h1, h2, h3, h4⟩
  | tick n =>
    show DebMissing (tickEv n st)
    simp only [tickEv, h3, List.filter_nil, List.map_nil, List.foldl_nil]
    exact ⟨h1, h2, rfl, h4⟩
  | pause => exact ⟨h1, h2, h3, h4⟩
  | resume => exact tryStart_missing ⟨h1, h2, h3, h4⟩

lemma runD_missing :
    ∀ (evs : List DebEv) (st : DebSt), DebMissing st → DebMissing (runD st evs) := by
  intro evs
  induction evs with
  | nil => intro st h; exact h
  | cons e evs ih => intro st h; exact ih (stepD st e) (stepD_missing st e h)

/-- C9: pushing an identity with no backing record in the store fails at
the debounce stage itself.  Whatever events follow (in whatever pause
state the scheduler starts), no quiet-period wait is ever started and the
identity is never promoted to the Run Executor queue; the single direct
push on a resumed scheduler makes the handler throw its not-found error,
reporting the task as failed. -/
theorem C9_missing_definition_never_promoted (p : Bool) (evs : List DebEv) :
    (runD (initD false p) evs).promotions = 0 ∧
    (runD (initD false p) evs).waits = [] ∧
    (runD (initD false false) [DebEv.push]).failures = 1 := by
  have h := runD_missing evs (initD false p) ⟨rfl, rfl, rfl, rfl⟩
  exact ⟨h.2.1, h.2.2.1, by decide⟩

/-- Witness for C9 on a concrete trace: a push followed by a full quiet
period still yields no wait and no promotion. -/
theorem C9_missing_definition_never_promoted_witness :
    (runD (initD false false) [DebEv.push, DebEv.tick 1000]).promotions = 0 ∧
    (runD (initD false false) [DebEv.push, DebEv.tick 1000]).waits = [] ∧
    (runD (initD false false) [DebEv.push]).failures = 1 :=
  C9_missing_definition_never_promoted false [DebEv.push, DebEv.tick 1000]

/-- A mutated item, as consumed by `AutoExport.changed`: its `libraryID`
and the collections returned by `item.getCollections()`. -/
structure Item where
  libraryID : Nat
  collections : List Nat
deriving DecidableEq, Repr

/-- `Set.prototype.add` on an insertion-ordered set represented as a
duplicate-free list. -/
def addToSet (s : List Nat) (x : Nat) : List Nat :=
  if x ∈ s then s else s ++ [x]

/-- The `while (collectionID) { add; collectionID = parent }` loop of
`AutoExport.changed` (source lines 213-216): add the collection, then
follow `Zotero.Collections.get(collectionID).parentID` until it is
absent.  `parent` is the external ancestor lookup; `fuel` is an explicit
termination budget for the walk (the theorems assume it dominates every
ancestor chain walked). -/
def walkUp (parent : Nat → Option Nat) : Nat → List Nat → Nat → List Nat
  | 0, s, _ => s
  | fuel + 1, s, c =>
    match parent c with
    | some p => walkUp parent fuel (addToSet s c) p
    | none => addToSet s c

/-- The per-collection step of `AutoExport.changed` (source lines
210-217): a collection already recorded in this batch is skipped
(`continue`), otherwise its ancestor chain is walked. -/
def collectOne (parent : Nat → Option Nat) (fuel : Nat) (s : List Nat)
    (c : Nat) : List Nat :=
  if c ∈ s then s else walkUp parent fuel s c

/-- The collection set accumulated by `AutoExport.changed` over the item
batch. -/
def collectCols (parent : Nat → Option Nat) (fuel : Nat)
    (items : List Item) : List Nat :=
  items.foldl (fun s it => it.collections.foldl (collectOne parent fuel) s) []

/-- The library set accumulated by `AutoExport.changed`: every item's
`libraryID`, unconditionally (source line 208). -/
def collectLibs (items : List Item) : List Nat :=
  items.foldl (fun s it => addToSet s it.libraryID) []

/-- Result of `AutoExport.changed`: the two computed sets and the emitted
events. -/
structure ChangedOut where
  collections : List Nat
  libraries : List Nat
  events : List (String × List Nat)
deriving DecidableEq, Repr

/-- `AutoExport.changed(items)` (source lines 201-222).  The source loop
updates the two sets independently per item; it is split here into one
fold per set with identical effect.  Each event is emitted only if its
set is non-empty (source lines 220-221), collections first. -/
def changed (parent : Nat → Option Nat) (fuel : Nat)
    (items : List Item) : ChangedOut :=
  let cols := collectCols parent fuel items
  let libs := collectLibs items
  { collections := cols, libraries := libs,
    events :=
      (if cols = [] then [] else [("collections-changed", cols)]) ++
      (if libs = [] then [] else [("libraries-changed", libs)]) }

/-- `Anc parent c x`: `x` lies on the parent chain starting at `c`
(including `c` itself) — the specification-side description of "the
collection together with its full ancestor chain, walking parent links
until a collection has no parent". -/
inductive Anc (parent : Nat → Option Nat) : Nat → Nat → Prop
  | refl (c : Nat) : Anc parent c c
  | step {c p x : Nat} : parent c = some p → Anc parent p x → Anc parent c x

lemma mem_addToSet (s : List Nat) (x y : Nat) :
    y ∈ addToSet s x ↔ y ∈ s ∨ y = x := by
  unfold addToSet
  by_cases h : x ∈ s
  · rw [if_pos h]
    constructor
    · exact Or.inl
    · rintro (hy | rfl)
      · exact hy
      · exact h
  · rw [if_neg h]
    simp [List.mem_append]

lemma anc_iff_none {parent : Nat → Option Nat} {c x : Nat}
    (h : parent c = none) : Anc parent c x ↔ x = c := by
  constructor
  · intro ha
    cases ha with
    | refl => rfl
    | step hp _ => rw [h] at hp; cases hp
  · rintro rfl
    exact Anc.refl x

lemma anc_iff_some {parent : Nat → Option Nat} {c p x : Nat}
    (h : parent c = some p) : Anc parent c x ↔ x = c ∨ Anc parent p x := by
  constructor
  · intro ha
    cases ha with
    | refl => exact Or.inl rfl
    | step hp hrest =>
      rw [h] at hp
      cases hp
      exact Or.inr hrest
  · rintro (rfl | hrest)
    · exact Anc.refl x
    · exact Anc.step h hrest

lemma anc_trans {parent : Nat → Option Nat} {a b c : Nat}
    (h1 : Anc parent a b) : Anc parent b c → Anc parent a c := by
  induction h1 with
  | refl => exact id
  | step hp _ ih => intro h2; exact Anc.step hp (ih h2)

lemma mem_walkUp {parent : Nat → Option Nat}
    (hdec : ∀ c p, parent c = some p → p < c) :
    ∀ (fuel c : Nat), c < fuel → ∀ (s : List Nat) (x : Nat),
      (x ∈ walkUp parent fuel s c ↔ x ∈ s ∨ Anc parent c x) := by
  intro fuel
  induction fuel with
  | zero => intro c hc; exact absurd hc (Nat.not_lt_zero c)
  | succ f ih =>
    intro c hc s x
    cases hp : parent c with
    | none =>
      simp only [walkUp, hp]
      rw [mem_addToSet, anc_iff_none hp]
    | some p =>
      have hpf : p < f := by
        have := hdec c p hp
        omega
      simp only [walkUp, hp]
      rw [ih p hpf (addToSet s c) x, mem_addToSet, anc_iff_some hp]
      tauto

/-- The accumulated set stays closed under ancestors: this is what makes
the source's per-collection `continue` shortcut sound. -/
def AncClosed (parent : Nat → Option Nat) (s : List Nat) : Prop :=
  ∀ y ∈ s, ∀ x, Anc parent y x → x ∈ s

lemma walkUp_closed {parent : Nat → Option Nat}
    (hdec : ∀ c p, parent c = some p → p < c) {fuel c : Nat} (hc : c < fuel)
    {s : List Nat} (hs : AncClosed parent s) :
    AncClosed parent (walkUp parent fuel s c) := by
  intro y hy x hx
  rw [mem_walkUp hdec fuel c hc] at hy ⊢
  rcases hy with hy | hy
  · exact Or.inl (hs y hy x hx)
  · exact Or.inr (anc_trans hy hx)

lemma mem_collectOne {parent : Nat → Option Nat}
    (hdec : ∀ c p, parent c = some p → p < c) {fuel c : Nat} (hc : c < fuel)
    {s : List Nat} (hs : AncClosed parent s) (x : Nat) :
    x ∈ collectOne parent fuel s c ↔ x ∈ s ∨ Anc parent c x := by
  unfold collectOne
  by_cases h : c ∈ s
  · rw [if_pos h]
    constructor
    · exact Or.inl
    · rintro (hx | hx)
      · exact hx
      · exact hs c h x hx
  · rw [if_neg h]
    exact mem_walkUp hdec fuel c hc s x

lemma collectOne_closed {parent : Nat → Option Nat}
    (hdec : ∀ c p, parent c = some p → p < c) {fuel c : Nat} (hc : c < fuel)
    {s : List Nat} (hs : AncClosed parent s) :
    AncClosed parent (collectOne parent fuel s c) := by
  unfold collectOne
  by_cases h : c ∈ s
  · rw [if_pos h]; exact hs
  · rw [if_neg h]; exact walkUp_closed hdec hc hs

lemma foldl_collectOne {parent : Nat → Option Nat}
    (hdec : ∀ c p, parent c = some p → p < c) {fuel : Nat} :
    ∀ (cs : List Nat) (s : List Nat), (∀ c ∈ cs, c < fuel) →
      AncClosed parent s →
      AncClosed parent (cs.foldl (collectOne parent fuel) s) ∧
      ∀ x, (x ∈ cs.foldl (collectOne parent fuel) s ↔
        x ∈ s ∨ ∃ c ∈ cs, Anc parent c x) := by
  intro cs
  induction cs with
  | nil =>
    intro s _ hs
    refine ⟨hs, fun x => ?_⟩
    simp
  | cons c cs ih =>
    intro s hcs hs
    have hc : c < fuel := hcs c (List.mem_cons_self c cs)
    have hcl : AncClosed parent (collectOne parent fuel s c) :=
      collectOne_closed hdec hc hs
    obtain ⟨hcl2, hmem⟩ := ih (collectOne parent fuel s c)
      (fun d hd => hcs d (List.mem_cons_of_mem c hd)) hcl
    refine ⟨hcl2, fun x => ?_⟩
    rw [List.foldl_cons, hmem x, mem_collectOne hdec hc hs x]
    constructor
    · rintro ((hx | hx) | ⟨d, hd, hdx⟩)
      · exact Or.inl hx
      · exact Or.inr ⟨c, List.mem_cons_self c cs, hx⟩
      · exact Or.inr ⟨d, List.mem_cons_of_mem c hd, hdx⟩
    · rintro (hx | ⟨d, hd, hdx⟩)
      · exact Or.inl (Or.inl hx)
      · rcases List.mem_cons.1 hd with rfl | hd
        · exact Or.inl (Or.inr hdx)
        · exact Or.inr ⟨d, hd, hdx⟩

lemma foldl_items_cols {parent : Nat → Option Nat}
    (hdec : ∀ c p, parent c = some p → p < c) {fuel : Nat} :
    ∀ (items : List Item) (s : List Nat),
      (∀ it ∈ items, ∀ c ∈ it.collections, c < fuel) →
      AncClosed parent s →
      ∀ x, (x ∈ items.foldl
          (fun s it => it.collections.foldl (collectOne parent fuel) s) s ↔
        x ∈ s ∨ ∃ it ∈ items, ∃ c ∈ it.collections, Anc parent c x) := by
  intro items
  induction items with
  | nil =>
    intro s _ _ x
    simp
  | cons it items ih =>
    intro s hit hs x
    have hin : ∀ c ∈ it.collections, c < fuel :=
      hit it (List.mem_cons_self it items)
    obtain ⟨hcl, hmem⟩ := foldl_collectOne hdec it.collections s hin hs
    rw [List.foldl_cons,
      ih (it.collections.foldl (collectOne parent fuel) s)
        (fun j hj => hit j (List.mem_cons_of_mem it hj)) hcl x,
      hmem x]
    constructor
    · rintro ((hx | ⟨c, hc, hcx⟩) | ⟨j, hj, hrest⟩)
      · exact Or.inl hx
      · exact Or.inr ⟨it, List.mem_cons_self it items, c, hc, hcx⟩
      · exact Or.inr ⟨j, List.mem_cons_of_mem it hj, hrest⟩
    · rintro (hx | ⟨j, hj, hrest⟩)
      · exact Or.inl (Or.inl hx)
      · rcases List.mem_cons.1 hj with rfl | hj
        · exact Or.inl (Or.inr hrest)
        · exact Or.inr ⟨j, hj, hrest⟩

lemma mem_collectLibs :
    ∀ (items : List Item) (s : List Nat) (x : Nat),
      x ∈ items.foldl (fun s it => addToSet s it.libraryID) s ↔
        x ∈ s ∨ ∃ it ∈ items, x = it.libraryID := by
  intro items
  induction items with
  | nil =>
    intro s x
    simp
  | cons it items ih =>
    intro s x
    rw [List.foldl_cons, ih (addToSet s it.libraryID) x, mem_addToSet]
    constructor
    · rintro ((hx | hx) | ⟨j, hj, hjx⟩)
      · exact Or.inl hx
      · exact Or.inr ⟨it, List.mem_cons_self it items, hx⟩
      · exact Or.inr ⟨j, List.mem_cons_of_mem it hj, hjx⟩
    · rintro (hx | ⟨j, hj, hjx⟩)
      · exact Or.inl (Or.inl hx)
      · rcases List.mem_cons.1 hj with rfl | hj
        · exact Or.inl (Or.inr hjx)
        · exact Or.inr ⟨j, hj, hjx⟩

/-- The concrete ancestor lookup of the claim's scenario: collection 3 has
parent 2, collection 2 has parent 1, collection 1 has no parent. -/
def parentEx (c : Nat) : Option Nat :=
  match c with
  | 3 => some 2
  | 2 => some 1
  | _ => none

lemma parentEx_dec : ∀ c p, parentEx c = some p → p < c := by
  intro c p h
  unfold parentEx at h
  split at h
  · cases h; omega
  · cases h; omega
  · cases h

/-- C7: `changed(items)` computes the touched-collection set as every
collection any item belongs to together with its full ancestor chain
(deduplicated across the batch); each of the two events is emitted
exactly when its set is non-empty; and on the concrete scenario of an
item in collection 3 with ancestors 2 and 1 the computed set is exactly
`[3, 2, 1]`. -/
theorem C7_changed_ancestor_walk (parent : Nat → Option Nat) (fuel : Nat)
    (items : List Item) (hdec : ∀ c p, parent c = some p → p < c)
    (hfuel : ∀ it ∈ items, ∀ c ∈ it.collections, c < fuel) :
    (∀ x, x ∈ (changed parent fuel items).collections ↔
        ∃ it ∈ items, ∃ c ∈ it.collections, Anc parent c x) ∧
    (("collections-changed", (changed parent fuel items).collections) ∈
        (changed parent fuel items).events ↔
      (changed parent fuel items).collections ≠ []) ∧
    (("libraries-changed", (changed parent fuel items).libraries) ∈
        (changed parent fuel items).events ↔
      (changed parent fuel items).libraries ≠ []) ∧
    (changed parentEx 10 [{ libraryID := 7, collections := [3] }]).collections =
      [3, 2, 1] := by
  have hclosed : AncClosed parent ([] : List Nat) := by
    intro y hy
    cases hy
  refine ⟨?_, ?_, ?_, by decide⟩
  · intro x
    have := foldl_items_cols hdec items [] hfuel hclosed x
    simpa [changed, collectCols] using this
  · by_cases hc : collectCols parent fuel items = [] <;>
      by_cases hl : collectLibs items = [] <;>
        simp [changed, hc, hl]
  · by_cases hc : collectCols parent fuel items = [] <;>
      by_cases hl : collectLibs items = [] <;>
        simp [changed, hc, hl]

/-- Witness for C7 at the concrete scenario input: one item in collection
3, with `parentEx` as ancestor lookup. -/
theorem C7_changed_ancestor_walk_witness :
    (∀ x,
        x ∈ (changed parentEx 10 [{ libraryID := 7, collections := [3] }]).collections ↔
        ∃ it ∈ [({ libraryID := 7, collections := [3] } : Item)],
          ∃ c ∈ it.collections, Anc parentEx c x) ∧
    (("collections-changed",
        (changed parentEx 10 [{ libraryID := 7, collections := [3] }]).collections) ∈
        (changed parentEx 10 [{ libraryID := 7, collections := [3] }]).events ↔
      (changed parentEx 10 [{ libraryID := 7, collections := [3] }]).collections ≠ []) ∧
    (("libraries-changed",
        (changed parentEx 10 [{ libraryID := 7, collections := [3] }]).libraries) ∈
        (changed parentEx 10 [{ libraryID := 7, collections := [3] }]).events ↔
      (changed parentEx 10 [{ libraryID := 7, collections := [3] }]).libraries ≠ []) ∧
    (changed parentEx 10 [{ libraryID := 7, collections := [3] }]).collections =
      [3, 2, 1] :=
  C7_changed_ancestor_walk parentEx 10 [{ libraryID := 7, collections := [3] }]
    parentEx_dec (by decide)

/-- C10: for every non-empty item batch, the libraries set is non-empty —
every item's `libraryID` is added unconditionally — so the
`libraries-changed` event is always emitted (while the collections set
may well be empty). -/
theorem C10_nonempty_batch_emits_libraries (parent : Nat → Option Nat)
    (fuel : Nat) (items : List Item) (h : items ≠ []) :
    (changed parent fuel items).libraries ≠ [] ∧
    ("libraries-changed", (changed parent fuel items).libraries) ∈
      (changed parent fuel items).events := by
  obtain ⟨it, rest, rfl⟩ := List.exists_cons_of_ne_nil h
  have hmem : it.libraryID ∈ collectLibs (it :: rest) := by
    rw [collectLibs, mem_collectLibs]
    exact Or.inr ⟨it, List.mem_cons_self it rest, rfl⟩
  have hne : collectLibs (it :: rest) ≠ [] := by
    intro hnil
    rw [hnil] at hmem
    cases hmem
  constructor
  · simpa [changed] using hne
  · simp [changed, hne]

/-- Witness for C10: a single item in no collection at all — the
`libraries-changed` event fires while the collections set stays empty. -/
theorem C10_nonempty_batch_emits_libraries_witness :
    ((changed parentEx 10 [{ libraryID := 5, collections := [] }]).libraries ≠ [] ∧
      ("libraries-changed",
        (changed parentEx 10 [{ libraryID := 5, collections := [] }]).libraries) ∈
        (changed parentEx 10 [{ libraryID := 5, collections := [] }]).events) ∧
    (changed parentEx 10 [{ libraryID := 5, collections := [] }]).collections = [] :=
  ⟨C10_nonempty_batch_emits_libraries parentEx 10
      [{ libraryID := 5, collections := [] }] (by decide), by decide⟩

end AutoExport
